import Mathlib

/-!
Shallow embedding of the protocol core of `goodix/core.py` (host-side driver
for a Goodix fingerprint sensor).

Conventions of the embedding:

* a Python `bytes` value is a `List Nat` whose elements are `< 256`;
* Python `struct.pack`/`struct.unpack` are `Option`-returning functions,
  `none` standing for a raised `struct.error`;
* Python indexing `payload[i]` is `payload[i]?`; an `IndexError` propagates
  as `none`;
* a raised `ValueError` / `SystemError` is `none` (or a dedicated outcome
  constructor where the distinction between error kinds matters);
* Python `x & 0xff` on a possibly-negative `int` is modelled with explicit
  natural-number arithmetic mod 256, `x << k` is `x * 2 ^ k`, `x >> k` is
  `x / 2 ^ k`, `x & 0xf` is `x % 16`.
-/

/-- Python `struct.pack("<B", x)`: one byte; raises unless `0 ≤ x ≤ 0xff`. -/
def pack_u8 (x : Nat) : Option (List Nat) :=
  if x < 256 then some [x] else none

/-- Python `struct.pack("<H", x)`: two little-endian bytes; raises unless
`0 ≤ x < 0x10000`. -/
def pack_u16 (x : Nat) : Option (List Nat) :=
  if x < 65536 then some [x % 256, x / 256] else none

/-- Python `struct.pack("<I", x)`: four little-endian bytes; raises unless
`0 ≤ x < 0x100000000`. -/
def pack_u32 (x : Nat) : Option (List Nat) :=
  if x < 4294967296 then
    some [x % 256, x / 256 % 256, x / 65536 % 256, x / 16777216]
  else none

/-- Python `struct.unpack("<H", b)[0]`: requires exactly two bytes, raises
`struct.error` otherwise. -/
def unpack_u16 (b : List Nat) : Option Nat :=
  match b with
  | [lo, hi] => some (lo + 256 * hi)
  | _ => none

/-- Python `struct.unpack("<I", b)[0]`: requires exactly four bytes. -/
def unpack_u32 (b : List Nat) : Option Nat :=
  match b with
  | [b0, b1, b2, b3] => some (b0 + 256 * b1 + 65536 * b2 + 16777216 * b3)
  | _ => none

/-- `encode_command` (core.py lines 49-62): `cmd0 << 4 | cmd1 << 1`. -/
def encode_command (cmd0 cmd1 : Nat) : Nat :=
  cmd0 <<< 4 ||| cmd1 <<< 1

/-- `decode_command` (core.py lines 65-82): raises `ValueError` when
`command & 0x1` is set, else returns `(command >> 4 & 0xf, command >> 1 & 0x7)`. -/
def decode_command (command : Nat) : Option (Nat × Nat) :=
  if command &&& 0x1 ≠ 0 then none
  else some (command >>> 4 &&& 0xf, command >>> 1 &&& 0x7)

/-- `encode_message_pack` (core.py lines 85-113).  `length?` models the
optional `length` parameter (Python default `None`, meaning `len(data)`);
the checksum byte `sum(payload) & 0xff` is always in range, so its
`struct.pack("<B", ...)` is inlined as `header.sum % 256`. -/
def encode_message_pack (data : List Nat) (flags : Nat)
    (length? : Option Nat) : Option (List Nat) :=
  let length := length?.getD data.length
  match pack_u8 flags, pack_u16 length with
  | some f, some ln =>
    let header := f ++ ln
    some (header ++ [header.sum % 256] ++ data)
  | _, _ => none

/-- `decode_message_pack` (core.py lines 116-136): reads the u16 length from
`payload[1:3]`, checks `sum(payload[0:3]) & 0xff == payload[3]`, and returns
`(payload[4:4+length], payload[0], length)`.  `payload[0]` is looked up
before the checksum test; when `payload[3]?` succeeds, `payload[0]?` does
too, so the order of failures is unchanged. -/
def decode_message_pack (payload : List Nat) : Option (List Nat × Nat × Nat) :=
  match unpack_u16 ((payload.drop 1).take 2) with
  | none => none
  | some length =>
    match payload[3]?, payload[0]? with
    | some ck, some flags =>
      if (payload.take 3).sum % 256 ≠ ck then none
      else some ((payload.drop 4).take length, flags, length)
    | _, _ => none

/-- `check_message_pack` (core.py lines 139-161): decode, then fail when the
flags differ or the captured data is shorter than the declared length. -/
def check_message_pack (payload : List Nat) (flags : Nat) : Option (List Nat) :=
  match decode_message_pack payload with
  | none => none
  | some (d, f, length) =>
    if f ≠ flags ∨ d.length < length then none else some d

/-- `encode_message_protocol` (core.py lines 164-195): emits
`command, (length+1) as u16, data, trailer` where
`trailer = (0xaa - sum(prefix)) & 0xff` when `checksum` is requested and the
sentinel `0x88` otherwise.  Python's `(0xaa - s) & 0xff` on a possibly
negative value equals `(0xaa + 256 - s % 256) % 256` on naturals. -/
def encode_message_protocol (data : List Nat) (command : Nat)
    (length? : Option Nat) (checksum : Bool) : Option (List Nat) :=
  let length := length?.getD data.length
  match pack_u8 command, pack_u16 (length + 1) with
  | some c, some ln =>
    let body := c ++ ln ++ data
    some (body ++ [if checksum then (0xaa + 256 - body.sum % 256) % 256 else 0x88])
  | _, _ => none

/-- `decode_message_protocol` (core.py lines 198-225): reads the u16 length,
checks the trailer byte at `payload[2+length]` against the checksum rule (or
the `0x88` sentinel), and returns `(payload[3:2+length], payload[0],
length - 1)`.  The returned length is an `Int` because Python computes
`length - 1` over signed integers. -/
def decode_message_protocol (payload : List Nat) (checksum : Bool) :
    Option (List Nat × Nat × Int) :=
  match unpack_u16 ((payload.drop 1).take 2) with
  | none => none
  | some length =>
    match payload[2 + length]? with
    | none => none
    | some t =>
      if (if checksum
          then t = (0xaa + 256 - (payload.take (2 + length)).sum % 256) % 256
          else t = 0x88) then
        match payload[0]? with
        | none => none
        | some command =>
          some ((payload.drop 3).take (length - 1), command, (length : Int) - 1)
      else none

/-- `check_message_protocol` (core.py lines 228-252). -/
def check_message_protocol (payload : List Nat) (command : Nat)
    (checksum : Bool) : Option (List Nat) :=
  match decode_message_protocol payload checksum with
  | none => none
  | some (d, c, length) =>
    if c ≠ command ∨ (d.length : Int) < length then none else some d

/-- `decode_ack` (core.py lines 255-272): fails unless `payload[1] & 0x1` is
set; returns `(payload[0], payload[1] & 0x2 == 0x2)`. -/
def decode_ack (payload : List Nat) : Option (Nat × Bool) :=
  match payload[1]? with
  | none => none
  | some b1 =>
    if b1 &&& 0x1 = 0 then none
    else
      match payload[0]? with
      | none => none
      | some b0 => some (b0, b1 &&& 0x2 = 0x2)

/-- `check_ack` (core.py lines 275-294). -/
def check_ack (payload : List Nat) (command : Nat) : Option Bool :=
  match decode_ack payload with
  | none => none
  | some (c, has_no_config) =>
    if c ≠ command then none else some has_no_config

/-- `decode_image` (core.py lines 297-318): consumes the payload six bytes at
a time; each chunk contributes, in order,
`(chunk[0] & 0xf) << 8 + chunk[1]`, `chunk[3] << 4 + chunk[0] >> 4`,
`(chunk[5] & 0xf) << 8 + chunk[2]`, `chunk[4] << 4 + chunk[5] >> 4`.
A trailing chunk shorter than six bytes makes Python raise `IndexError`
on `chunk[5]` (or earlier), hence the `none` fallback. -/
def decode_image : List Nat → Option (List Nat)
  | [] => some []
  | c0 :: c1 :: c2 :: c3 :: c4 :: c5 :: rest =>
    match decode_image rest with
    | none => none
    | some image =>
      some (((c0 % 16) * 256 + c1) :: (c3 * 16 + c0 / 16) ::
            ((c5 % 16) * 256 + c2) :: (c4 * 16 + c5 / 16) :: image)
  | _ => none

/-- `decode_mcu_state` (core.py lines 321-345).  The source computes the
wake-up-to-POV time as `decode("<H", payload[10:11])`: the slice
`payload[10:11]` holds at most ONE byte while `"<H"` requires two, so
`struct.unpack` raises `struct.error` on every call (the source also omits
the `[0]` subscript on the unpacked tuple).  The slice is embedded as
written, so the unpack step always yields `none`. -/
def decode_mcu_state (payload : List Nat) :
    Option (Nat × Bool × Bool × Bool × Nat × Nat × Nat × Nat × Nat) :=
  match payload[0]?, payload[1]?, payload[2]?, payload[9]? with
  | some b0, some b1, some b2, some b9 =>
    match unpack_u16 ((payload.drop 10).take 1) with
    | none => none
    | some w =>
      match payload[12]?, payload[13]? with
      | some b12, some b13 =>
        some (b0, b1 &&& 0x1 = 0x1, b1 &&& 0x2 = 0x2, b1 &&& 0x4 = 0x4,
              b2 / 16, b9, w, b12, b13)
      | _, _ => none
  | _, _, _, _ => none

/-- Outcome of a Python code path that distinguishes several exception
kinds. -/
inductive PyOutcome (α : Type) where
  | ok (a : α)
  | valueError
  | typeError
  | structError
deriving DecidableEq

/-- Request building of `Device.write_sensor_register` (core.py lines
592-621).  `address : Nat ⊕ List Nat` mirrors `Union[int, List[int]]` and
`value : List Nat ⊕ List (List Nat)` mirrors `Union[bytes, List[bytes]]`.
In the batch branch the source runs `for i in length:` where `length` is the
`int` `len(address)`: iterating over an `int` raises `TypeError`
unconditionally, before any pair is appended, so the branch never reaches
the per-value checks or the write. -/
def write_sensor_register_request (address : Nat ⊕ List Nat)
    (value : List Nat ⊕ List (List Nat)) : PyOutcome (List Nat) :=
  match address with
  | Sum.inl addr =>
    match value with
    | Sum.inr _ => PyOutcome.valueError
    | Sum.inl v =>
      match pack_u16 addr with
      | none => PyOutcome.structError
      | some a => PyOutcome.ok (0x00 :: a ++ v)
  | Sum.inr addrs =>
    match value with
    | Sum.inl _ => PyOutcome.valueError
    | Sum.inr vs =>
      if vs.length ≠ addrs.length then PyOutcome.valueError
      else PyOutcome.typeError

/-- The slice loop of the batch branch of `Device.read_sensor_register`
(core.py lines 666-669): `for i in range(0, length, 2):
value.append(message[i:i + 2])`, one slice per iteration. -/
def slices2 (message : List Nat) : Nat → List (List Nat)
  | 0 => []
  | n + 1 => message.take 2 :: slices2 (message.drop 2) n

/-- Response handling of the batch branch of `Device.read_sensor_register`
(core.py lines 662-670): `length = len(message) - 1` (signed), raise unless
`length == len(address) * 2`, then collect `length / 2` two-byte slices. -/
def read_sensor_register_batch_handle (address : List Nat)
    (message : List Nat) : Option (List (List Nat)) :=
  let length : Int := (message.length : Int) - 1
  if length ≠ (address.length : Int) * 2 then none
  else some (slices2 message (length.toNat / 2))

/-- Outcome of the response handling of `Device.preset_psk_write_r`,
distinguishing the two `SystemError` branches from the uncaught
`IndexError`. -/
inductive PskWriteOutcome where
  | ok
  | lengthError
  | invalidResponse
  | indexError
deriving DecidableEq

/-- Response handling of `Device.preset_psk_write_r` (core.py lines
860-867): `if len(message) > 2: raise SystemError("Invalid response
length")` then `if message[0] != 0x00: raise SystemError("Invalid
response")`.  `message[0]` on an empty message raises `IndexError`. -/
def preset_psk_write_r_handle (message : List Nat) : PskWriteOutcome :=
  if message.length > 2 then PskWriteOutcome.lengthError
  else
    match message[0]? with
    | none => PskWriteOutcome.indexError
    | some b0 =>
      if b0 ≠ 0x00 then PskWriteOutcome.invalidResponse else PskWriteOutcome.ok

/-- Response handling of `Device.preset_psk_read_r` (core.py lines 885-896):
reject a message shorter than 9 bytes, read the psk length from
`message[5:9]`, reject when fewer than `psk_length` bytes follow offset 9,
reject when `message[0] != 0` or the echoed address `message[1:5]` differs
from the request, else return `message[9:9+psk_length]`. -/
def preset_psk_read_r_handle (address : Nat) (message : List Nat) :
    Option (List Nat) :=
  if message.length < 9 then none
  else
    match unpack_u32 ((message.drop 5).take 4) with
    | none => none
    | some psk_length =>
      if message.length - 9 < psk_length then none
      else
        match message[0]?, unpack_u32 ((message.drop 1).take 4) with
        | some b0, some addr =>
          if b0 ≠ 0x00 ∨ addr ≠ address then none
          else some ((message.drop 9).take psk_length)
        | _, _ => none

/-- The read side of the `Device.preset_psk_read_r` exchange (core.py lines
869-896): unwrap the first read as a message pack with `0xa0` flags, then as
a message protocol addressed to `COMMAND_ACK` (`0xb0`), check the ack
against `COMMAND_PRESET_PSK_READ_R` (`0xe4`); unwrap the second read the
same way addressed to `0xe4`; then validate the message body. -/
def preset_psk_read_r (address : Nat) (read1 read2 : List Nat) :
    Option (List Nat) :=
  match check_message_pack read1 0xa0 with
  | none => none
  | some p1 =>
    match check_message_protocol p1 0xb0 true with
    | none => none
    | some a =>
      match check_ack a 0xe4 with
      | none => none
      | some _ =>
        match check_message_pack read2 0xa0 with
        | none => none
        | some p2 =>
          match check_message_protocol p2 0xe4 true with
          | none => none
          | some message => preset_psk_read_r_handle address message

/-! Helper lemmas shared by the claim theorems. -/

lemma sum_set_add (l : List Nat) (i b old : Nat) (h : l[i]? = some old) :
    (l.set i b).sum + old = l.sum + b := by
  induction l generalizing i with
  | nil => simp at h
  | cons x xs ih =>
    cases i with
    | zero =>
      simp only [List.getElem?_cons_zero, Option.some.injEq] at h
      subst h
      simp [List.set]
      omega
    | succ n =>
      simp only [List.getElem?_cons_succ] at h
      have := ih n h
      simp [List.set]
      omega

lemma encode_message_pack_eq (data : List Nat) (flags : Nat)
    (h1 : flags < 256) (h2 : data.length < 65536) :
    encode_message_pack data flags none = some
      (flags :: data.length % 256 :: data.length / 256 ::
       ((flags + (data.length % 256 + data.length / 256)) % 256) :: data) := by
  simp [encode_message_pack, pack_u8, pack_u16, h1, h2]

lemma decode_message_pack_explicit (f l0 l1 ck : Nat) (rest : List Nat) :
    decode_message_pack (f :: l0 :: l1 :: ck :: rest) =
      if (f + (l0 + l1)) % 256 ≠ ck then none
      else some (rest.take (l0 + 256 * l1), f, l0 + 256 * l1) := by
  simp [decode_message_pack, unpack_u16]

/-- Claim C1: for every byte string `data` with `len(data) < 2^16` and every
`flags` in `[0,255]`, `decode_message_pack (encode_message_pack data flags)`
returns exactly `(data, flags, len(data))` without raising. -/
theorem message_pack_roundtrip (data : List Nat) (flags : Nat)
    (h1 : flags < 256) (h2 : data.length < 65536) :
    ∃ enc, encode_message_pack data flags none = some enc ∧
      decode_message_pack enc = some (data, flags, data.length) := by
  refine ⟨_, encode_message_pack_eq data flags h1 h2, ?_⟩
  rw [decode_message_pack_explicit]
  have h3 : data.length % 256 + 256 * (data.length / 256) = data.length := by
    omega
  rw [if_neg (by omega), h3, List.take_length]

/-- Witness for `message_pack_roundtrip` at `data = [1, 2, 3]`,
`flags = 0xa0`. -/
theorem message_pack_roundtrip_witness :
    ∃ enc, encode_message_pack [1, 2, 3] 0xa0 none = some enc ∧
      decode_message_pack enc = some ([1, 2, 3], 0xa0, 3) :=
  message_pack_roundtrip [1, 2, 3] 0xa0 (by decide) (by decide)

lemma encode_message_protocol_eq (data : List Nat) (command : Nat) (cs : Bool)
    (h1 : command < 256) (h2 : data.length + 1 < 65536) :
    encode_message_protocol data command none cs = some
      (command :: (data.length + 1) % 256 :: (data.length + 1) / 256 ::
       (data ++ [if cs then
          (0xaa + 256 - (command + ((data.length + 1) % 256 +
            ((data.length + 1) / 256 + data.sum))) % 256) % 256
        else 0x88])) := by
  simp [encode_message_protocol, pack_u8, pack_u16, h1, h2]

lemma decode_message_protocol_body (cmd l0 l1 t : Nat) (d : List Nat)
    (cs : Bool) (hln : l0 + 256 * l1 = d.length + 1) :
    decode_message_protocol (cmd :: l0 :: l1 :: (d ++ [t])) cs =
      if (if cs then
            t = (0xaa + 256 - (cmd + (l0 + (l1 + d.sum))) % 256) % 256
          else t = 0x88) then
        some (d, cmd, (d.length : Int))
      else none := by
  have hassoc : cmd :: l0 :: l1 :: (d ++ [t]) = (cmd :: l0 :: l1 :: d) ++ [t] := by
    simp
  have hlen : (cmd :: l0 :: l1 :: d).length = 2 + (l0 + 256 * l1) := by
    simp
    omega
  have hidx : (cmd :: l0 :: l1 :: (d ++ [t]))[2 + (l0 + 256 * l1)]? = some t := by
    rw [hassoc, ← hlen, List.getElem?_concat_length]
  have htake : (cmd :: l0 :: l1 :: (d ++ [t])).take (2 + (l0 + 256 * l1)) =
      cmd :: l0 :: l1 :: d := by
    rw [hassoc, ← hlen, List.take_left]
  have hdrop : ((cmd :: l0 :: l1 :: (d ++ [t])).drop 3).take
      (l0 + 256 * l1 - 1) = d := by
    have : (cmd :: l0 :: l1 :: (d ++ [t])).drop 3 = d ++ [t] := rfl
    rw [this, hln]
    simp [List.take_left']
  have hcast : ((l0 + 256 * l1 : Nat) : Int) - 1 = (d.length : Int) := by
    rw [hln]
    push_cast
    ring
  have hu : unpack_u16 (((cmd :: l0 :: l1 :: (d ++ [t])).drop 1).take 2) =
      some (l0 + 256 * l1) := rfl
  simp only [decode_message_protocol, hu, hidx, htake, hdrop, hcast]
  simp [List.sum_cons]

/-- Claim C2: for every byte string `data` with `len(data) + 1 < 2^16`,
every `command` in `[0,255]`, and both checksum policies,
`decode_message_protocol (encode_message_protocol data command cs) cs`
returns exactly `(data, command, len(data))` without raising, and the
on-wire length field of the encoding equals `len(data) + 1`. -/
theorem message_protocol_roundtrip (data : List Nat) (command : Nat)
    (cs : Bool) (h1 : command < 256) (h2 : data.length + 1 < 65536) :
    ∃ enc, encode_message_protocol data command none cs = some enc ∧
      decode_message_protocol enc cs = some (data, command, (data.length : Int)) ∧
      unpack_u16 ((enc.drop 1).take 2) = some (data.length + 1) := by
  refine ⟨_, encode_message_protocol_eq data command cs h1 h2, ?_, ?_⟩
  · rw [decode_message_protocol_body _ _ _ _ _ _ (by omega)]
    cases cs <;> simp
  · have : unpack_u16 [(data.length + 1) % 256, (data.length + 1) / 256] =
        some ((data.length + 1) % 256 + 256 * ((data.length + 1) / 256)) := rfl
    simp only [List.drop_succ_cons, List.drop_zero, List.take_succ_cons,
      List.take_zero, this]
    congr 1
    omega

/-- Witness for `message_protocol_roundtrip` at `data = [5, 6]`,
`command = 0x20`, with the checksum policy enabled. -/
theorem message_protocol_roundtrip_witness :
    ∃ enc, encode_message_protocol [5, 6] 0x20 none true = some enc ∧
      decode_message_protocol enc true = some ([5, 6], 0x20, (2 : Int)) ∧
      unpack_u16 ((enc.drop 1).take 2) = some 3 :=
  message_protocol_roundtrip [5, 6] 0x20 true (by decide) (by decide)

lemma encode_message_protocol_eq_checksum (data : List Nat) (command : Nat)
    (h1 : command < 256) (h2 : data.length + 1 < 65536) :
    encode_message_protocol data command none true = some
      (command :: (data.length + 1) % 256 :: (data.length + 1) / 256 ::
       (data ++ [(0xaa + 256 - (command + ((data.length + 1) % 256 +
          ((data.length + 1) / 256 + data.sum))) % 256) % 256])) := by
  rw [encode_message_protocol_eq data command true h1 h2]
  simp

lemma decode_message_protocol_body_checksum (cmd l0 l1 t : Nat)
    (d : List Nat) (hln : l0 + 256 * l1 = d.length + 1) :
    decode_message_protocol (cmd :: l0 :: l1 :: (d ++ [t])) true =
      if t = (0xaa + 256 - (cmd + (l0 + (l1 + d.sum))) % 256) % 256 then
        some (d, cmd, (d.length : Int))
      else none := by
  rw [decode_message_protocol_body _ _ _ _ _ _ hln]
  simp

/-- Counterexample to claim C3 as stated: the message-pack checksum covers
only the flags and length bytes, so flipping the data byte at position 4
(inside the declared extent, declared length 1) of the validly encoded frame
for `data = [0x00]`, `flags = 0xa0` leaves `decode_message_pack` succeeding
with the altered data instead of failing. -/
theorem message_pack_data_flip_undetected :
    encode_message_pack [0x00] 0xa0 none = some [0xa0, 0x01, 0x00, 0xa1, 0x00] ∧
    decode_message_pack ([0xa0, 0x01, 0x00, 0xa1, 0x00].set 4 0x01) =
      some ([0x01], 0xa0, 1) := by
  decide

/-- Claim C3, amended: for a validly encoded message-pack frame, flipping
any single byte among the four header bytes (flags, the two length bytes,
or the checksum byte) makes `decode_message_pack` fail; a flip of a data
byte is not necessarily detected, because the pack checksum covers only the
header.  For a validly encoded message-protocol frame with the checksum
policy, flipping the command byte, any data byte, or the trailer byte makes
`decode_message_protocol` fail; flips of the length field are not covered. -/
theorem single_byte_flip_detection :
    (∀ (data : List Nat) (flags i b old : Nat) (enc : List Nat),
        flags < 256 → data.length < 65536 → b < 256 →
        encode_message_pack data flags none = some enc →
        i < 4 → enc[i]? = some old → b ≠ old →
        decode_message_pack (enc.set i b) = none) ∧
    (∀ (data : List Nat) (command i b old : Nat) (enc : List Nat),
        command < 256 → data.length + 1 < 65536 → b < 256 →
        (∀ x ∈ data, x < 256) →
        encode_message_protocol data command none true = some enc →
        (i = 0 ∨ (3 ≤ i ∧ i ≤ data.length + 3)) →
        enc[i]? = some old → b ≠ old →
        decode_message_protocol (enc.set i b) true = none) := by
  constructor
  · intro data flags i b old enc h1 h2 hb henc hi hold hne
    rw [encode_message_pack_eq data flags h1 h2, Option.some.injEq] at henc
    subst henc
    have hi4 : i = 0 ∨ i = 1 ∨ i = 2 ∨ i = 3 := by omega
    rcases hi4 with rfl | rfl | rfl | rfl <;>
      simp only [List.getElem?_cons_zero, List.getElem?_cons_succ,
        Option.some.injEq] at hold <;>
      subst hold <;>
      simp only [List.set_cons_zero, List.set_cons_succ] <;>
      rw [decode_message_pack_explicit, if_pos (by omega)]
  · intro data command i b old enc h1 h2 hb hbytes henc hi hold hne
    rw [encode_message_protocol_eq_checksum data command h1 h2,
      Option.some.injEq] at henc
    subst henc
    rcases hi with rfl | ⟨hi3, hin⟩
    · simp only [List.getElem?_cons_zero, Option.some.injEq] at hold
      subst hold
      simp only [List.set_cons_zero]
      rw [decode_message_protocol_body_checksum _ _ _ _ _ (by omega),
        if_neg (by omega)]
    · obtain ⟨j, rfl⟩ : ∃ j, i = j + 3 := ⟨i - 3, by omega⟩
      have hset : ((command :: (data.length + 1) % 256 ::
          (data.length + 1) / 256 :: (data ++ [(0xaa + 256 - (command +
          ((data.length + 1) % 256 + ((data.length + 1) / 256 +
          data.sum))) % 256) % 256])).set (j + 3) b) =
          command :: (data.length + 1) % 256 :: (data.length + 1) / 256 ::
          ((data ++ [(0xaa + 256 - (command + ((data.length + 1) % 256 +
          ((data.length + 1) / 256 + data.sum))) % 256) % 256]).set j b) := by
        simp [List.set_cons_succ]
      have hget : ((command :: (data.length + 1) % 256 ::
          (data.length + 1) / 256 :: (data ++ [(0xaa + 256 - (command +
          ((data.length + 1) % 256 + ((data.length + 1) / 256 +
          data.sum))) % 256) % 256]))[j + 3]?) =
          (data ++ [(0xaa + 256 - (command + ((data.length + 1) % 256 +
          ((data.length + 1) / 256 + data.sum))) % 256) % 256])[j]? := by
        simp [List.getElem?_cons_succ]
      rw [hget] at hold
      rw [hset]
      by_cases hj : j < data.length
      · rw [List.getElem?_append_left hj] at hold
        have hold256 : old < 256 := hbytes old (List.getElem?_mem hold)
        have hsum : (data.set j b).sum + old = data.sum + b :=
          sum_set_add data j b old hold
        rw [List.set_append_left _ _ hj]
        rw [decode_message_protocol_body_checksum _ _ _ _ _
          (by simp; omega)]
        rw [if_neg (by omega)]
      · have hj' : j = data.length := by omega
        subst hj'
        rw [List.getElem?_append_right (Nat.le_refl _)] at hold
        simp only [Nat.sub_self, List.getElem?_cons_zero,
          Option.some.injEq] at hold
        subst hold
        rw [List.set_append_right _ _ (Nat.le_refl _)]
        simp only [Nat.sub_self, List.set_cons_zero]
        rw [decode_message_protocol_body_checksum _ _ _ _ _ (by omega),
          if_neg (by omega)]

/-- Witness for `single_byte_flip_detection`: flipping the checksum byte
(position 3) of the encoding of `data = [7]`, `flags = 0xa0` from `0xa1`
to `0x00` makes `decode_message_pack` fail. -/
theorem single_byte_flip_detection_witness :
    decode_message_pack ([0xa0, 0x01, 0x00, 0xa1, 0x07].set 3 0x00) = none :=
  single_byte_flip_detection.1 [7] 0xa0 3 0x00 0xa1
    [0xa0, 0x01, 0x00, 0xa1, 0x07] (by decide) (by decide) (by decide)
    (by decide) (by decide) (by decide) (by decide)

/-- Claim C9: a `PRESET_PSK_READ_R` exchange that receives the valid ack
frame and a valid data response whose message-protocol data is the 9-byte
boundary message (status `0x00`, echoed address, psk length 0) returns the
empty PSK without failing; in general the response handler rejects any
message shorter than 9 bytes, rejects a message carrying fewer than
`psk_length` bytes after offset 9, and otherwise returns exactly bytes
`9..9+psk_length`. -/
theorem preset_psk_read_r_spec :
    preset_psk_read_r 0x00
        [0xa0, 0x06, 0x00, 0xa6, 0xb0, 0x03, 0x00, 0xe4, 0x01, 0x12]
        [0xa0, 0x0d, 0x00, 0xad, 0xe4, 0x0a, 0x00,
         0x00, 0x00, 0x00, 0x00, 0x00, 0x00, 0x00, 0x00, 0x00, 0xbc] =
      some [] ∧
    (∀ (address : Nat) (message : List Nat), message.length < 9 →
       preset_psk_read_r_handle address message = none) ∧
    (∀ (address psk_length : Nat) (message : List Nat),
       unpack_u32 ((message.drop 5).take 4) = some psk_length →
       9 ≤ message.length → message.length - 9 < psk_length →
       preset_psk_read_r_handle address message = none) ∧
    (∀ (address psk_length : Nat) (message : List Nat),
       9 ≤ message.length →
       message[0]? = some 0x00 →
       unpack_u32 ((message.drop 1).take 4) = some address →
       unpack_u32 ((message.drop 5).take 4) = some psk_length →
       psk_length ≤ message.length - 9 →
       preset_psk_read_r_handle address message =
         some ((message.drop 9).take psk_length)) := by
  refine ⟨by decide, ?_, ?_, ?_⟩
  · intro address message h
    unfold preset_psk_read_r_handle
    rw [if_pos h]
  · intro address psk_length message hpsk h9 hlt
    unfold preset_psk_read_r_handle
    simp only [hpsk, if_neg (show ¬message.length < 9 by omega)]
    rw [if_pos hlt]
  · intro address psk_length message h9 hb0 haddr hpsk hle
    unfold preset_psk_read_r_handle
    simp only [hb0, haddr, hpsk, if_neg (show ¬message.length < 9 by omega),
      if_neg (show ¬message.length - 9 < psk_length by omega)]
    simp

/-- Witness for `preset_psk_read_r_spec`: an 11-byte response for address 5
with psk length 2 yields the two PSK bytes after offset 9. -/
theorem preset_psk_read_r_spec_witness :
    preset_psk_read_r_handle 5 [0, 5, 0, 0, 0, 2, 0, 0, 0, 7, 8] =
      some ((([0, 5, 0, 0, 0, 2, 0, 0, 0, 7, 8] : List Nat).drop 9).take 2) :=
  preset_psk_read_r_spec.2.2.2 5 2 [0, 5, 0, 0, 0, 2, 0, 0, 0, 7, 8]
    (by decide) (by decide) (by decide) (by decide) (by decide)

/-- Claim C4: for every `cmd0` in `[0,15]` and `cmd1` in `[0,7]`,
`decode_command (encode_command cmd0 cmd1)` returns exactly `(cmd0, cmd1)`,
and `decode_command` fails on every 8-bit id with bit 0 set (the odd ids
`2*k+1`, `k < 128`). -/
theorem command_roundtrip :
    (∀ (c0 : Fin 16) (c1 : Fin 8),
       decode_command (encode_command c0.val c1.val) = some (c0.val, c1.val)) ∧
    (∀ k : Fin 128, decode_command (2 * k.val + 1) = none) := by
  decide

lemma decode_image_ok : ∀ (n : Nat) (payload : List Nat),
    payload.length = 6 * n → (∀ x ∈ payload, x < 256) →
    ∃ image, decode_image payload = some image ∧
      image.length = 4 * n ∧ ∀ s ∈ image, s < 4096 := by
  intro n
  induction n with
  | zero =>
    intro payload hlen _
    have hnil : payload = [] := List.eq_nil_of_length_eq_zero (by omega)
    subst hnil
    exact ⟨[], rfl, rfl, by simp⟩
  | succ n ih =>
    intro payload hlen hb
    rcases payload with _ | ⟨c0, _ | ⟨c1, _ | ⟨c2, _ | ⟨c3, _ | ⟨c4, _ |
      ⟨c5, rest⟩⟩⟩⟩⟩⟩ <;>
      simp only [List.length_nil, List.length_cons] at hlen <;>
      try omega
    have hrest : rest.length = 6 * n := by omega
    obtain ⟨image, hdec, hlen4, hrange⟩ := ih rest hrest
      (fun x hx => hb x (by simp [hx]))
    refine ⟨(c0 % 16 * 256 + c1) :: (c3 * 16 + c0 / 16) ::
      (c5 % 16 * 256 + c2) :: (c4 * 16 + c5 / 16) :: image, ?_, ?_, ?_⟩
    · simp only [decode_image, hdec]
    · simp only [List.length_cons, hlen4]
      omega
    · intro s hs
      have hc0 : c0 < 256 := hb c0 (by simp)
      have hc1 : c1 < 256 := hb c1 (by simp)
      have hc2 : c2 < 256 := hb c2 (by simp)
      have hc3 : c3 < 256 := hb c3 (by simp)
      have hc4 : c4 < 256 := hb c4 (by simp)
      have hc5 : c5 < 256 := hb c5 (by simp)
      simp only [List.mem_cons] at hs
      rcases hs with rfl | rfl | rfl | rfl | hs
      · omega
      · omega
      · omega
      · omega
      · exact hrange s hs

lemma decode_image_append : ∀ (n : Nat) (xs ys : List Nat),
    xs.length = 6 * n →
    decode_image (xs ++ ys) = (decode_image xs).bind
      (fun a => (decode_image ys).map (fun b => a ++ b)) := by
  intro n
  induction n with
  | zero =>
    intro xs ys h
    have hnil : xs = [] := List.eq_nil_of_length_eq_zero (by omega)
    subst hnil
    simp only [List.nil_append, decode_image, Option.some_bind]
    cases decode_image ys <;> simp
  | succ n ih =>
    intro xs ys h
    rcases xs with _ | ⟨c0, _ | ⟨c1, _ | ⟨c2, _ | ⟨c3, _ | ⟨c4, _ |
      ⟨c5, rest⟩⟩⟩⟩⟩⟩ <;>
      simp only [List.length_nil, List.length_cons] at h <;>
      try omega
    have hrest : rest.length = 6 * n := by omega
    simp only [List.cons_append, decode_image, List.append_eq]
    rw [ih rest ys hrest]
    cases hr : decode_image rest <;> cases hy : decode_image ys <;> simp

/-- Claim C5: for every byte string whose length is a multiple of 6,
`decode_image` succeeds with exactly 4 samples per 6-byte chunk, each a
12-bit value; decoding distributes over chunk-aligned concatenation (chunk
order preserved); and the single chunk `[0x12,0x34,0x56,0x78,0x9a,0xbc]`
decodes to the literal samples `[0x234, 0x781, 0xc56, 0x9ab]`. -/
theorem decode_image_spec :
    (∀ payload : List Nat, (∀ x ∈ payload, x < 256) →
       payload.length % 6 = 0 →
       ∃ image, decode_image payload = some image ∧
         image.length = 4 * (payload.length / 6) ∧ ∀ s ∈ image, s < 4096) ∧
    (∀ xs ys : List Nat, xs.length % 6 = 0 →
       decode_image (xs ++ ys) = (decode_image xs).bind
         (fun a => (decode_image ys).map (fun b => a ++ b))) ∧
    decode_image [0x12, 0x34, 0x56, 0x78, 0x9a, 0xbc] =
      some [0x234, 0x781, 0xc56, 0x9ab] := by
  refine ⟨?_, ?_, by decide⟩
  · intro payload hb h6
    obtain ⟨n, hn⟩ : ∃ n, payload.length = 6 * n :=
      ⟨payload.length / 6, by omega⟩
    obtain ⟨image, hd, hl, hr⟩ := decode_image_ok n payload hn hb
    refine ⟨image, hd, ?_, hr⟩
    rw [hl, hn]
    omega
  · intro xs ys h6
    exact decode_image_append (xs.length / 6) xs ys (by omega)

/-- Witness for `decode_image_spec` at the single concrete chunk. -/
theorem decode_image_spec_witness :
    ∃ image, decode_image [0x12, 0x34, 0x56, 0x78, 0x9a, 0xbc] =
        some image ∧
      image.length =
        4 * (([0x12, 0x34, 0x56, 0x78, 0x9a, 0xbc] : List Nat).length / 6) ∧
      ∀ s ∈ image, s < 4096 :=
  decode_image_spec.1 [0x12, 0x34, 0x56, 0x78, 0x9a, 0xbc] (by decide)
    (by decide)

/-- Claim C6 evaluated on the code: `decode_mcu_state` never returns a
result, because the source unpacks the wake-up-to-POV u16 from the one-byte
slice `payload[10:11]`, which raises `struct.error` for every payload (the
claim instead requires the little-endian u16 formed from bytes 10 and 11 of
any payload of at least 14 bytes). -/
theorem decode_mcu_state_always_raises (payload : List Nat) :
    decode_mcu_state payload = none := by
  have h : unpack_u16 ((payload.drop 10).take 1) = none := by
    cases h10 : payload.drop 10 with
    | nil => rfl
    | cons a t => rfl
  unfold decode_mcu_state
  split
  · rw [h]
  · rfl

/-- Claim C7 evaluated on the code: the batch branch of
`write_sensor_register` raises `TypeError` (it iterates `for i in length:`
over the `int` length) for every same-length address/value pair of lists,
instead of building the `0x01`-prefixed request the claim describes. -/
theorem write_sensor_register_batch_typeerror (address : List Nat)
    (value : List (List Nat)) (h : value.length = address.length) :
    write_sensor_register_request (Sum.inr address) (Sum.inr value) =
      PyOutcome.typeError := by
  simp [write_sensor_register_request, h]

/-- Witness for `write_sensor_register_batch_typeerror` with one address
and one two-byte value. -/
theorem write_sensor_register_batch_typeerror_witness :
    write_sensor_register_request (Sum.inr [0x00]) (Sum.inr [[0x00, 0x00]]) =
      PyOutcome.typeError :=
  write_sensor_register_batch_typeerror [0x00] [[0x00, 0x00]] (by decide)

lemma slices2_length (n : Nat) : ∀ message : List Nat,
    (slices2 message n).length = n := by
  induction n with
  | zero => intro m; rfl
  | succ k ih => intro m; simp [slices2, ih]

lemma slices2_get (n : Nat) : ∀ (message : List Nat) (k : Nat), k < n →
    (slices2 message n)[k]? = some ((message.drop (2 * k)).take 2) := by
  induction n with
  | zero => intro m k hk; omega
  | succ nn ih =>
    intro m k hk
    cases k with
    | zero => simp [slices2]
    | succ kk =>
      simp only [slices2, List.getElem?_cons_succ]
      rw [ih (m.drop 2) kk (by omega), List.drop_drop]
      have : 2 + 2 * kk = 2 * (kk + 1) := by omega
      rw [this]

/-- Counterexample to claim C8 as stated: for one address, the code rejects
the 2-byte response `[0x12, 0x34]` (the claim says this is exactly the
success shape) and instead accepts the 3-byte response `[0x12, 0x34, 0x00]`,
because the source checks `len(message) - 1 == 2 * len(address)`. -/
theorem read_sensor_register_batch_counterexample :
    read_sensor_register_batch_handle [0x0000] [0x12, 0x34] = none ∧
    read_sensor_register_batch_handle [0x0000] [0x12, 0x34, 0x00] =
      some [[0x12, 0x34]] := by
  decide

/-- Claim C8, amended: a batch `read_sensor_register` exchange succeeds
exactly when the data-response payload consists of `2 * n + 1` bytes for `n`
addresses, in which case the returned list holds the `n` two-byte values
taken in order from the first `2 * n` bytes; any other response length
raises the response-shape error. -/
theorem read_sensor_register_batch_amended :
    (∀ address message : List Nat,
        message.length = 2 * address.length + 1 →
        ∃ v, read_sensor_register_batch_handle address message = some v ∧
          v.length = address.length ∧
          ∀ k, k < address.length →
            v[k]? = some ((message.drop (2 * k)).take 2)) ∧
    (∀ address message : List Nat,
        message.length ≠ 2 * address.length + 1 →
        read_sensor_register_batch_handle address message = none) := by
  constructor
  · intro address message h
    have hcount : ((message.length : Int) - 1).toNat / 2 = address.length := by
      omega
    refine ⟨slices2 message address.length, ?_, slices2_length _ _,
      fun k hk => slices2_get _ _ _ hk⟩
    unfold read_sensor_register_batch_handle
    rw [if_neg (by omega), hcount]
  · intro address message h
    unfold read_sensor_register_batch_handle
    rw [if_pos (by omega)]

/-- Witness for `read_sensor_register_batch_amended` with two addresses and
a five-byte response. -/
theorem read_sensor_register_batch_amended_witness :
    ∃ v, read_sensor_register_batch_handle [1, 2] [10, 11, 20, 21, 0] =
        some v ∧
      v.length = ([1, 2] : List Nat).length ∧
      ∀ k, k < ([1, 2] : List Nat).length →
        v[k]? = some ((([10, 11, 20, 21, 0] : List Nat).drop (2 * k)).take 2) :=
  read_sensor_register_batch_amended.1 [1, 2] [10, 11, 20, 21, 0] (by decide)

/-- Claim C10: the response-length guard of `preset_psk_write_r` (fail only
when the response exceeds 2 bytes) lets an empty response through, and the
subsequent access to byte 0 is out of bounds: the handler ends in the
`IndexError` outcome, reaching neither the success path nor the typed
invalid-response branch. -/
theorem preset_psk_write_r_empty_response :
    preset_psk_write_r_handle [] = PskWriteOutcome.indexError := by
  decide
